import Mathlib

/-!
Verification of the metrics aggregation and exposition core of the
conduit proxy (src/proxy/src/telemetry/metrics).  The Rust sources are
shallowly embedded: u64 values become Nat with explicit saturation at
2^64 - 1, panics become `Except String`, `IndexMap` becomes an
insertion-ordered association list, and `HashMap` becomes a canonical
(key-sorted) association list.
-/

set_option maxRecDepth 8192

namespace Conduit

/-- u64::MAX, the saturation point of counters and gauges. -/
def U64_MAX : Nat := 2 ^ 64 - 1

/-- Rust computations that may panic; the message is the panic payload. -/
abbrev Panics (a : Type) := Except String a

/-! ### labels.rs: DstLabels and label fragments -/

/-- Character comparison used to keep the HashMap model canonical. -/
def charLt (a b : Char) : Bool := a.toNat < b.toNat

/-- Lexicographic comparison of keys, used for the canonical map model. -/
def keyLt : List Char → List Char → Bool
  | [], [] => false
  | [], _ :: _ => true
  | _ :: _, [] => false
  | a :: as, b :: bs =>
    if charLt a b then true
    else if charLt b a then false
    else keyLt as bs

/-- Model of `HashMap::insert`: replace the value when the key is present,
otherwise insert in key order.  Two Rust HashMaps are equal exactly when
their canonical association lists are equal. -/
def mapInsert : List (String × String) → String → String → List (String × String)
  | [], k, v => [(k, v)]
  | (k0, v0) :: rest, k, v =>
    if k = k0 then (k, v) :: rest
    else if keyLt k.data k0.data then (k, v) :: (k0, v0) :: rest
    else (k0, v0) :: mapInsert rest k v

/-- labels.rs `DstLabels`: a formatted label string plus the retained
original key/value map (modelled canonically). -/
structure DstLabels where
  formatted : String
  original : List (String × String)
deriving DecidableEq

/-- One formatted destination label pair, exactly as labels.rs builds it:
`dst_<key>="<value>"` with the value text inserted verbatim. -/
def dstEntryStr (k v : String) : String :=
  "dst_" ++ k ++ "=\x22" ++ v ++ "\x22"

/-- The comma-prefixed tail of the formatted string, one `,dst_k="v"`
per remaining pair. -/
def dstJoin : List (String × String) → String
  | [] => ""
  | kv :: rest => ("," ++ dstEntryStr kv.1 kv.2) ++ dstJoin rest

/-- labels.rs `DstLabels::new`: `None` on an empty iterator, otherwise the
first pair is formatted without a leading comma and every further pair with
one; every pair is also inserted into the retained map. -/
def dstLabelsNew (pairs : List (String × String)) : Option DstLabels :=
  match pairs with
  | [] => none
  | (k, v) :: rest =>
    some
      { formatted :=
          rest.foldl (fun s kv => s ++ ("," ++ dstEntryStr kv.1 kv.2)) (dstEntryStr k v)
        original :=
          rest.foldl (fun m kv => mapInsert m kv.1 kv.2) (mapInsert [] k v) }

/-- labels.rs `impl hash::Hash for DstLabels` hashes only the formatted
string: this is the data fed to the hasher. -/
def dstHashInput (d : DstLabels) : String := d.formatted

/-- labels.rs `impl FmtLabels for DstLabels`: is_empty of the formatted
string. -/
def dstIsEmpty (d : DstLabels) : Bool := d.formatted.isEmpty

/-- labels.rs `impl FmtLabels for Option<L>` at `L = DstLabels`:
`None` is empty, `Some` defers to the value. -/
def optionLabelsIsEmpty : Option DstLabels → Bool
  | none => true
  | some d => dstIsEmpty d

/-- A label fragment observed through the `FmtLabels` capability: the
value of `is_empty()` and the text written by `fmt_labels`. -/
structure LabelFragment where
  isEmpty : Bool
  out : String
deriving DecidableEq

/-- labels.rs `impl FmtLabels for AppendLabels`: nothing when both parts
are empty, one part alone when the other is empty, and the two parts
joined by a single comma otherwise. -/
def appendLabels (a b : LabelFragment) : LabelFragment :=
  { isEmpty := a.isEmpty && b.isEmpty
    out :=
      match a.isEmpty, b.isEmpty with
      | true, true => ""
      | false, true => a.out
      | true, false => b.out
      | false, false => a.out ++ "," ++ b.out }

/-- The `FmtLabels` contract: a fragment reports empty exactly when it
writes nothing. -/
def Honest (l : LabelFragment) : Prop := l.isEmpty = true ↔ l.out = ""

/-- A string neither starts nor ends with a comma. -/
def NoEdgeComma (s : String) : Prop :=
  s.data.head? ≠ some ',' ∧ s.data.getLast? ≠ some ','

/-! ### A Prometheus label tokenizer (spec side, for the round-trip claim)

Modelled from the spec: the exposition grammar of section 6 — a label body
is `key="value"` pairs joined by single commas, values quoted, with
backslash escapes `\\`, `\"` and `\n` inside values. -/

/-- Unescape one backslash-escaped character of a label value. -/
def unescapeChar (c : Char) : Char := if c = 'n' then '\n' else c

/-- Read a label key: the characters before the `=` sign. -/
def parseKeyAux : List Char → Option (List Char × List Char)
  | [] => none
  | c :: rest =>
    if c = '=' then some ([], rest)
    else
      match parseKeyAux rest with
      | some (k, r) => some (c :: k, r)
      | none => none

/-- Read a quoted label value after the opening quote; the flag records
that the previous character was an unconsumed backslash. -/
def parseValueAux : Bool → List Char → Option (List Char × List Char)
  | _, [] => none
  | true, c :: rest =>
    match parseValueAux false rest with
    | some (v, r) => some (unescapeChar c :: v, r)
    | none => none
  | false, c :: rest =>
    if c = '\x22' then some ([], rest)
    else if c = '\\' then parseValueAux true rest
    else
      match parseValueAux false rest with
      | some (v, r) => some (c :: v, r)
      | none => none

/-- Read a quoted label value after the opening quote, resolving
backslash escapes, and return the rest after the closing quote. -/
def parseValue (cs : List Char) : Option (List Char × List Char) :=
  parseValueAux false cs

/-- Read one `key="value"` pair and return it with the rest of the
input. -/
def parsePair (cs : List Char) : Option ((String × String) × List Char) :=
  match parseKeyAux cs with
  | none => none
  | some (k, rest1) =>
    match rest1 with
    | [] => none
    | c :: rest2 =>
      if c = '\x22' then
        match parseValue rest2 with
        | none => none
        | some (v, rest3) => some ((String.mk k, String.mk v), rest3)
      else none

/-- Tokenize a non-empty label body into its `key="value"` pairs; the
fuel bounds the number of pairs. -/
def parseLabelsAux : Nat → List Char → Option (List (String × String))
  | 0, _ => none
  | fuel + 1, cs =>
    match parsePair cs with
    | none => none
    | some (kv, rest) =>
      match rest with
      | [] => some [kv]
      | c :: rest2 =>
        if c = ',' then
          match parseLabelsAux fuel rest2 with
          | some ps => some (kv :: ps)
          | none => none
        else none

/-- Tokenize a label body (one pair consumes several characters, so the
input length bounds the number of pairs). -/
def parseLabels (s : String) : Option (List (String × String)) :=
  parseLabelsAux (s.data.length + 1) s.data

/-- Keys free of `=` and values free of quote and backslash: the pairs on
which the unescaped formatting of labels.rs is unambiguous. -/
def CleanPairs (pairs : List (String × String)) : Prop :=
  ∀ kv ∈ pairs, ('=' ∉ kv.1.data) ∧ ('\x22' ∉ kv.2.data) ∧ ('\\' ∉ kv.2.data)

/-! ### Events (input contract)

Modelled from the spec: the event record shapes of section 4.6 and the
event input contract of section 6 — telemetry/event.rs and the ctx
modules are not under src/. -/

/-- Proxy direction discriminator. -/
inductive Direction
  | inbound
  | outbound
deriving DecidableEq

/-- A client (dialed) transport context carries the lazily resolved
destination-label snapshot; None when discovery has not resolved labels. -/
structure ClientCtx where
  dstLabels : Option DstLabels
deriving DecidableEq

/-- Transport role: client (dialed) or server (accepted). -/
inductive TransportCtx
  | client (c : ClientCtx)
  | server
deriving DecidableEq

/-- Context of an HTTP stream: direction, the client transport it rides
on, and the request authority. -/
structure ReqCtx where
  direction : Direction
  client : ClientCtx
  authority : String
deriving DecidableEq

/-- Context of an HTTP response: its request plus the HTTP status. -/
structure RspCtx where
  req : ReqCtx
  status : Nat
deriving DecidableEq

/-- Payload of TransportClose. -/
structure CloseEv where
  clean : Bool
  duration : Nat
  rx_bytes : Nat
  tx_bytes : Nat
deriving DecidableEq

/-- Payload of StreamResponseEnd. -/
structure EndEv where
  grpc_status : Option Nat
  since_request_open : Nat
deriving DecidableEq

/-- Payload of stream failure events: an HTTP/2 error code and the
elapsed time since the request opened. -/
structure FailEv where
  error : Nat
  since_request_open : Nat
deriving DecidableEq

/-- The event shapes consumed by `record`. -/
inductive Event
  | transportOpen (d : Direction) (ctx : TransportCtx)
  | transportClose (d : Direction) (ctx : TransportCtx) (c : CloseEv)
  | streamRequestOpen (req : ReqCtx)
  | streamRequestFail (req : ReqCtx) (f : FailEv)
  | streamRequestEnd (req : ReqCtx)
  | streamResponseOpen (rsp : RspCtx) (since_request_open : Nat)
  | streamResponseEnd (rsp : RspCtx) (e : EndEv)
  | streamResponseFail (rsp : RspCtx) (f : FailEv)
deriving DecidableEq

/-! ### mod.rs: the MetricsTree / Aggregate / Serve half -/

/-- mod.rs `TransportMetrics` (all counters and the duration histogram;
its update methods are unimplemented in the source). -/
structure MTTransportMetrics where
  accept_open_total : Nat := 0
  accept_close_total : Nat := 0
  connect_open_total : Nat := 0
  connect_close_total : Nat := 0
  connection_duration : List Nat := []
  received_bytes : Nat := 0
  sent_bytes : Nat := 0
deriving DecidableEq

/-- mod.rs `HttpResponseClass`. -/
structure MTHttpResponseClass where
  status_code : Nat
  grpc_status_code : Option Nat
deriving DecidableEq

/-- mod.rs `HttpResponseMetrics`. -/
structure MTHttpResponseMetrics where
  total : Nat := 0
  latency : List Nat := []
  lifetime : List Nat := []
deriving DecidableEq

/-- mod.rs `HttpTree`: request metrics plus the per-response-class map. -/
structure MTHttpTree where
  request_total : Nat := 0
  responses : List (MTHttpResponseClass × MTHttpResponseMetrics) := []
deriving DecidableEq

/-- mod.rs `DestinationTree`. -/
structure MTDestinationTree where
  transport : MTTransportMetrics := {}
  http : List (String × MTHttpTree) := []
deriving DecidableEq

/-- mod.rs `ProxyTree`: destinations keyed by the optional label set. -/
structure MTProxyTree where
  by_destination : List (Option DstLabels × MTDestinationTree) := []
deriving DecidableEq

/-- mod.rs `MetricsTree`. -/
structure MetricsTree where
  inbound : MTProxyTree := {}
  outbound : MTProxyTree := {}
  start_time : Nat := 0
deriving DecidableEq

/-- The fresh tree produced by `MetricsTree::new` (start_time abstracted). -/
def mtEmpty : MetricsTree := {}

/-- `IndexMap::entry(k).or_insert_with(Default)` followed by a fallible
method call on the entry: find or append the entry, then run the method. -/
def entryUpdateM {κ α : Type} [DecidableEq κ]
    (m : List (κ × α)) (k : κ) (d : α) (f : α → Panics α) : Panics (List (κ × α)) :=
  match m with
  | [] => (f d).map (fun v => [(k, v)])
  | (k0, v0) :: rest =>
    if k = k0 then (f v0).map (fun v => (k0, v) :: rest)
    else (entryUpdateM rest k d f).map (fun r => (k0, v0) :: r)

/-- mod.rs `HttpTree::open`: `unimplemented!()`. -/
def mtHttpOpen (_h : MTHttpTree) : Panics MTHttpTree := .error "not implemented"

/-- mod.rs `HttpTree::end`: a no-op. -/
def mtHttpEnd (h : MTHttpTree) : Panics MTHttpTree := .ok h

/-- mod.rs `HttpTree::fail`: `unimplemented!()`. -/
def mtHttpFail (_h : MTHttpTree) (_f : FailEv) : Panics MTHttpTree := .error "not implemented"

/-- mod.rs `TransportMetrics::open`: `unimplemented!()`. -/
def mtTransportOpenOp (_m : MTTransportMetrics) : Panics MTTransportMetrics :=
  .error "not implemented"

/-- mod.rs `TransportMetrics::close`: `unimplemented!()`. -/
def mtTransportCloseOp (_m : MTTransportMetrics) (_c : CloseEv) : Panics MTTransportMetrics :=
  .error "not implemented"

/-- mod.rs `DestinationTree::http_response_mut`: reads the status, then
hits `unimplemented!()`. -/
def mtHttpResponseMut (_d : MTDestinationTree) (_rsp : RspCtx) : Panics MTDestinationTree :=
  .error "not implemented"

/-- mod.rs `ProxyTree::destination_mut` followed by a fallible update of
the destination tree. -/
def mtDstMut (p : MTProxyTree) (labels : Option DstLabels)
    (f : MTDestinationTree → Panics MTDestinationTree) : Panics MTProxyTree :=
  (entryUpdateM p.by_destination labels {} f).map (fun m => { by_destination := m })

/-- mod.rs `MetricsTree::proxy_mut` followed by a fallible update of the
selected proxy tree. -/
def mtUpdateProxy (t : MetricsTree) (d : Direction)
    (f : MTProxyTree → Panics MTProxyTree) : Panics MetricsTree :=
  match d with
  | .inbound => (f t.inbound).map (fun p => { t with inbound := p })
  | .outbound => (f t.outbound).map (fun p => { t with outbound := p })

/-- mod.rs `DestinationTree::http_request_mut` followed by a fallible
update of the request tree. -/
def mtHttpRequestMut (d : MTDestinationTree) (authority : String)
    (f : MTHttpTree → Panics MTHttpTree) : Panics MTDestinationTree :=
  (entryUpdateM d.http authority {} f).map (fun m => { d with http := m })

/-- The destination labels `record` resolves for a transport context:
the client snapshot, or None for server transports. -/
def transportDst : TransportCtx → Option DstLabels
  | .client c => c.dstLabels
  | .server => none

/-- mod.rs `MetricsTree::record`: dispatch the event to the leaf updater;
a leaf updater that is `unimplemented!()` panics. -/
def mtRecord (t : MetricsTree) (ev : Event) : Panics MetricsTree :=
  match ev with
  | .streamRequestOpen req =>
    mtUpdateProxy t req.direction (fun p =>
      mtDstMut p req.client.dstLabels (fun d =>
        mtHttpRequestMut d req.authority mtHttpOpen))
  | .streamRequestFail req f =>
    mtUpdateProxy t req.direction (fun p =>
      mtDstMut p req.client.dstLabels (fun d =>
        mtHttpRequestMut d req.authority (fun h => mtHttpFail h f)))
  | .streamRequestEnd req =>
    mtUpdateProxy t req.direction (fun p =>
      mtDstMut p req.client.dstLabels (fun d =>
        mtHttpRequestMut d req.authority mtHttpEnd))
  | .streamResponseOpen rsp _ =>
    mtUpdateProxy t rsp.req.direction (fun p =>
      mtDstMut p rsp.req.client.dstLabels (fun d => mtHttpResponseMut d rsp))
  | .streamResponseEnd rsp _ =>
    mtUpdateProxy t rsp.req.direction (fun p =>
      mtDstMut p rsp.req.client.dstLabels (fun d => mtHttpResponseMut d rsp))
  | .streamResponseFail rsp _ =>
    mtUpdateProxy t rsp.req.direction (fun p =>
      mtDstMut p rsp.req.client.dstLabels (fun d => mtHttpResponseMut d rsp))
  | .transportOpen dir ctx =>
    mtUpdateProxy t dir (fun p =>
      mtDstMut p (transportDst ctx) (fun d =>
        (mtTransportOpenOp d.transport).map (fun m => { d with transport := m })))
  | .transportClose dir ctx c =>
    mtUpdateProxy t dir (fun p =>
      mtDstMut p (transportDst ctx) (fun d =>
        (mtTransportCloseOp d.transport c).map (fun m => { d with transport := m })))

/-- mod.rs `Aggregate::record_event`: lock the tree and record. -/
def recordEvent (t : MetricsTree) (ev : Event) : Panics MetricsTree := mtRecord t ev

/-! ### mod.rs: the scrape endpoint -/

/-- HTTP request method. Modelled from the spec: the hyper request type
is external; only the method, path and headers reach `Serve::call`. -/
inductive Method
  | get
  | post
  | put
  | delete
  | other (s : String)
deriving DecidableEq

/-- The parts of an HTTP request `Serve::call` can observe. -/
structure HttpRequest where
  method : Method
  path : String
  headers : List (String × String)
deriving DecidableEq

/-- The parts of the HTTP response `Serve::call` builds. -/
structure HttpResponse where
  status : Nat
  headers : List (String × String)
  body : String
deriving DecidableEq

/-- mod.rs `Serve::prometheus_metrics`: `unimplemented!()`. -/
def prometheusMetrics (_t : MetricsTree) : Panics String := .error "not implemented"

/-- mod.rs `Serve::call`: any path other than `/metrics` gets an empty
404; otherwise the body is produced (no look at the method or at the
Accept-Encoding header) and served as plain text. -/
def serveCall (t : MetricsTree) (req : HttpRequest) : Panics HttpResponse :=
  if req.path ≠ "/metrics" then
    .ok { status := 404, headers := [], body := "" }
  else
    match prometheusMetrics t with
    | .error e => .error e
    | .ok body =>
      .ok
        { status := 200
          headers :=
            [("content-length", toString body.length), ("content-type", "text/plain")]
          body := body }

/-! ### mod.rs and help.rs: metric descriptors -/

/-- mod.rs `Desc`: a (name, kind, help) triple. -/
structure Desc where
  kind : String
  name : String
  help : String
deriving DecidableEq

/-- mod.rs `impl fmt::Display for Desc`: the HELP line then the TYPE
line; the TYPE line spells `counter` regardless of the kind field. -/
def descDisplay (d : Desc) : String :=
  "# HELP " ++ d.name ++ " " ++ d.help ++ "\n# TYPE " ++ d.name ++ " counter\n"

/-- mod.rs `RESPONSE_LATENCY_MS_DESC`. -/
def RESPONSE_LATENCY_MS_DESC : Desc :=
  { kind := "histogram"
    name := "response_latency_ms"
    help := "A histogram of the total latency of a response. This is measured from when the request headers are received to when the response stream has completed." }

/-- help.rs `Help`: the same (kind, name, help) triple. -/
structure Help where
  kind : String
  name : String
  help : String
deriving DecidableEq

/-- help.rs `impl fmt::Display for Help`: the HELP line then a TYPE line
that spells the declared kind. -/
def helpDisplay (h : Help) : String :=
  "# HELP " ++ h.name ++ " " ++ h.help ++ "\n# TYPE " ++ h.name ++ " " ++ h.kind ++ "\n"

/-- help.rs `HTTP` section, third entry: the response latency histogram. -/
def HELP_RESPONSE_LATENCY : Help :=
  { kind := "histogram"
    name := "response_latency_ms"
    help := "A histogram of the total latency of a response. This is measured from when the request headers are received to when the response stream has completed." }

/-! ### tree.rs: counters, gauges, and the transport tree -/

/-- Modelled from the spec: counter.rs is not under src/; section 4.1 — a
u64 counter whose addition saturates at u64::MAX. -/
def counterAdd (c n : Nat) : Nat := min (c + n) U64_MAX

/-- Counter `incr()`: saturating add of one. -/
def counterIncr (c : Nat) : Nat := counterAdd c 1

/-- gauge.rs `Gauge::incr`: checked add; on overflow the value is kept
and a warning is logged. -/
def gaugeIncr (g : Nat) : Nat := if g = U64_MAX then g else g + 1

/-- gauge.rs `Gauge::decr`: checked sub; at zero the value is kept and a
warning is logged. -/
def gaugeDecr (g : Nat) : Nat := if g = 0 then g else g - 1

/-- Modelled from the spec: latency.rs is not under src/; section 4.3 —
`observe` records the millisecond duration; only the multiset of
observations matters here, kept as a list. -/
def histObserve (h : List Nat) (d : Nat) : List Nat := d :: h

/-- tree.rs `TransportEndMetrics`: close counter and lifetime histogram. -/
structure TransportEndMetrics where
  close_total : Nat := 0
  lifetime : List Nat := []
deriving DecidableEq

/-- tree.rs `TransportTree`: open/active/byte counters and the per-end
class map, which starts empty and gains at most the Success and Failure
entries. -/
structure TransportTree where
  open_total : Nat := 0
  open_active : Nat := 0
  rx_bytes_total : Nat := 0
  tx_bytes_total : Nat := 0
  by_end_success : Option TransportEndMetrics := none
  by_end_failure : Option TransportEndMetrics := none
deriving DecidableEq

/-- The fresh `TransportTree` (Default). -/
def emptyTransportTree : TransportTree := {}

/-- tree.rs `TransportTree::open`: increment `open_total` and the
`open_active` gauge. -/
def transportTreeOpen (t : TransportTree) : TransportTree :=
  { t with
    open_total := counterIncr t.open_total
    open_active := gaugeIncr t.open_active }

/-- tree.rs `TransportTree::close`: decrement the gauge, add the byte
counts, then bump the close counter and lifetime histogram of the end
class selected by `clean`. -/
def transportTreeClose (t : TransportTree) (c : CloseEv) : TransportTree :=
  let t1 :=
    { t with
      open_active := gaugeDecr t.open_active
      rx_bytes_total := counterAdd t.rx_bytes_total c.rx_bytes
      tx_bytes_total := counterAdd t.tx_bytes_total c.tx_bytes }
  if c.clean then
    let e := t1.by_end_success.getD {}
    { t1 with
      by_end_success :=
        some { close_total := counterIncr e.close_total
               lifetime := histObserve e.lifetime c.duration } }
  else
    let e := t1.by_end_failure.getD {}
    { t1 with
      by_end_failure :=
        some { close_total := counterIncr e.close_total
               lifetime := histObserve e.lifetime c.duration } }

/-- The transport events of one `TransportTree`. -/
inductive TEvent
  | tOpen
  | tClose (c : CloseEv)
deriving DecidableEq

/-- Dispatch one transport event. -/
def transportStep (t : TransportTree) : TEvent → TransportTree
  | .tOpen => transportTreeOpen t
  | .tClose c => transportTreeClose t c

/-- Run a sequence of transport events from the default state. -/
def runTransport (es : List TEvent) : TransportTree :=
  es.foldl transportStep emptyTransportTree

/-- Whether a transport event is an open. -/
def isOpenEv : TEvent → Bool
  | .tOpen => true
  | .tClose _ => false

/-- Number of open events. -/
def opensCount (es : List TEvent) : Nat := (es.filter isOpenEv).length

/-- Number of close events. -/
def closesCount (es : List TEvent) : Nat := (es.filter (fun e => !isOpenEv e)).length

/-- The close total of an optional end-class entry; an absent entry
scrapes as zero. -/
def endCloseTotal : Option TransportEndMetrics → Nat
  | none => 0
  | some m => m.close_total

/-- close_total over Success plus close_total over Failure. -/
def closeSum (t : TransportTree) : Nat :=
  endCloseTotal t.by_end_success + endCloseTotal t.by_end_failure

/-! ### tree.rs: HTTP response classification and label formatting -/

/-- tree.rs `SUCCESS_CLASS`. -/
def SUCCESS_CLASS : String := "classification=\x22success\x22"

/-- tree.rs `FAILURE_CLASS`. -/
def FAILURE_CLASS : String := "classification=\x22failure\x22"

/-- tree.rs `H2_REASONS`: the ordered HTTP/2 reason names. -/
def H2_REASONS : List String :=
  ["NO_ERROR", "PROTOCOL_ERROR", "INTERNAL_ERROR", "FLOW_CONTROL_ERROR",
   "SETTINGS_TIMEOUT", "STREAM_CLOSED", "FRAME_SIZE_ERROR", "REFUSED_STREAM",
   "CANCEL", "COMPRESSION_ERROR", "CONNECT_ERROR", "ENHANCE_YOUR_CALM",
   "INADEQUATE_SECURITY", "HTTP_1_1_REQUIRED", "UNKNOWN"]

/-- tree.rs reason lookup: index by the wire error code, clamped to the
last entry. -/
def h2Reason (code : Nat) : String :=
  let idx := if code < H2_REASONS.length then code else H2_REASONS.length - 1
  H2_REASONS.getD idx ""

/-- tree.rs `HttpResponseClass`. -/
inductive HttpResponseClass
  | response (status_code : Nat)
  | error (reason : String)
deriving DecidableEq

/-- tree.rs `HttpEndClass`. -/
inductive HttpEndClass
  | eos
  | grpc (status_code : Nat)
  | error (reason : String)
deriving DecidableEq

/-- tree.rs `HttpEndMetrics`. -/
structure HttpEndMetrics where
  total : Nat := 0
  latency : List Nat := []
deriving DecidableEq

/-- tree.rs `HttpResponseTree`. -/
structure HttpResponseTree where
  by_end : List (HttpEndClass × HttpEndMetrics) := []
deriving DecidableEq

/-- tree.rs `HttpRequestTree`: the request counter and the response map. -/
structure HttpRequestTree where
  total : Nat := 0
  by_response : List (HttpResponseClass × HttpResponseTree) := []
deriving DecidableEq

/-- `IndexMap::entry(k).or_insert_with(Default)` then an infallible
update: find or append, then update in place. -/
def entryUpdate {κ α : Type} [DecidableEq κ]
    (m : List (κ × α)) (k : κ) (d : α) (f : α → α) : List (κ × α) :=
  match m with
  | [] => [(k, f d)]
  | (k0, v0) :: rest =>
    if k = k0 then (k0, f v0) :: rest
    else (k0, v0) :: entryUpdate rest k d f

/-- tree.rs `HttpEndMetrics::add`: bump the total and observe the
latency. -/
def httpEndAdd (m : HttpEndMetrics) (d : Nat) : HttpEndMetrics :=
  { total := counterIncr m.total
    latency := histObserve m.latency d }

/-- tree.rs `HttpRequestTree::fail`: map the error code to a reason, file
the sample under response class `Error{reason}` and end class
`Error{reason}`. -/
def httpRequestTreeFail (t : HttpRequestTree) (f : FailEv) : HttpRequestTree :=
  let reason := h2Reason f.error
  { t with
    by_response :=
      entryUpdate t.by_response (.error reason) {}
        (fun rsp =>
          { by_end :=
              entryUpdate rsp.by_end (.error reason) {}
                (fun e => httpEndAdd e f.since_request_open) }) }

/-- tree.rs `HttpRequestTree::open`: increment the request counter. -/
def httpRequestTreeOpen (t : HttpRequestTree) : HttpRequestTree :=
  { t with total := counterIncr t.total }

/-- tree.rs: the classification/status/error label fragment written for
one (response class, end class) pair in `HttpResponseTree::fmt_metrics`.
In the branch for response class `Error` the source writes the
classification and the error label with no separator between them. -/
def rspLabels (rspClass : HttpResponseClass) (endClass : HttpEndClass) : String :=
  match rspClass with
  | .error reason => FAILURE_CLASS ++ "error=\x22" ++ reason ++ "\x22"
  | .response http_status =>
    match endClass with
    | .eos =>
      (if http_status < 500 then SUCCESS_CLASS else FAILURE_CLASS) ++
        ",status_code=\x22" ++ toString http_status ++ "\x22"
    | .grpc grpc_status =>
      (if grpc_status = 0 then SUCCESS_CLASS else FAILURE_CLASS) ++
        ",status_code=\x22" ++ toString http_status ++ "\x22" ++
        ",grpc_status_code=\x22" ++ toString grpc_status ++ "\x22"
    | .error reason =>
      FAILURE_CLASS ++ "," ++ "error=\x22" ++ reason ++ "\x22"

/-! ## Theorems -/

/-- C1: the claim says `Aggregate::record_event` completes normally for
every event shape, including TransportOpen.  It does not: recording a
TransportOpen reaches `TransportMetrics::open`, whose body in mod.rs is
just `unimplemented!()`, so the call panics. -/
theorem C1_record_event_panics_on_transport_open :
    mtRecord mtEmpty (.transportOpen .inbound .server) = .error "not implemented" ∧
    recordEvent mtEmpty (.transportOpen .outbound (.client ⟨none⟩)) =
      .error "not implemented" := by
  exact ⟨rfl, rfl⟩

/-- C3: the claim says `Serve::call` negotiates gzip from the
Accept-Encoding header.  The source never reads any header: a GET of
/metrics with Accept-Encoding gzip panics inside the unimplemented body
producer instead of answering with a gzip response, and the response is
the same whatever the request headers are. -/
theorem C3_no_gzip_negotiation :
    serveCall mtEmpty
      ⟨.get, "/metrics", [("accept-encoding", "gzip;q=0.9, identity;q=0.1")]⟩ =
      .error "not implemented" ∧
    ∀ (t : MetricsTree) (m : Method) (p : String) (h h2 : List (String × String)),
      serveCall t ⟨m, p, h⟩ = serveCall t ⟨m, p, h2⟩ := by
  constructor
  · rfl
  · intro t m p h h2
    by_cases hp : p = "/metrics" <;> simp [serveCall, hp]

/-- C4 counterexample: a POST to /metrics does not receive 404 (or 405);
the path check passes and the call fails inside the unimplemented body
producer, so no 404/405 response is ever produced for a wrong method. -/
theorem C4_counterexample_post_metrics_not_404 :
    serveCall mtEmpty ⟨.post, "/metrics", []⟩ = .error "not implemented" := rfl

/-- C4 amended: every request whose path is not /metrics receives 404
Not Found with empty body, regardless of method; the method is never
examined, so a request to /metrics is handled identically to a GET. -/
theorem C4_amended_routing :
    ∀ (t : MetricsTree) (req : HttpRequest),
      (req.path ≠ "/metrics" → serveCall t req = .ok ⟨404, [], ""⟩) ∧
      serveCall t req = serveCall t ⟨.get, req.path, req.headers⟩ := by
  intro t req
  constructor
  · intro h
    simp [serveCall, h]
  · obtain ⟨m, p, hs⟩ := req
    by_cases hp : p = "/metrics" <;> simp [serveCall, hp]

/-- C4 amended witness: a POST to a path other than /metrics gets the
empty 404. -/
theorem C4_amended_routing_witness :
    serveCall mtEmpty ⟨.post, "/other", []⟩ = .ok ⟨404, [], ""⟩ :=
  (C4_amended_routing mtEmpty ⟨.post, "/other", []⟩).1 (by decide)

/-- C6: the claim says a descriptor with kind histogram emits that kind
in its TYPE line.  mod.rs hard-codes the word counter in `Display for
Desc`, so RESPONSE_LATENCY_MS_DESC (kind histogram) is declared as a
counter; the help.rs emitter, by contrast, does spell the declared kind. -/
theorem C6_desc_type_line_hardcodes_counter :
    RESPONSE_LATENCY_MS_DESC.kind = "histogram" ∧
    descDisplay RESPONSE_LATENCY_MS_DESC =
      "# HELP response_latency_ms A histogram of the total latency of a response. This is measured from when the request headers are received to when the response stream has completed.\n# TYPE response_latency_ms counter\n" ∧
    descDisplay RESPONSE_LATENCY_MS_DESC ≠
      "# HELP response_latency_ms A histogram of the total latency of a response. This is measured from when the request headers are received to when the response stream has completed.\n# TYPE response_latency_ms histogram\n" ∧
    helpDisplay HELP_RESPONSE_LATENCY =
      "# HELP response_latency_ms A histogram of the total latency of a response. This is measured from when the request headers are received to when the response stream has completed.\n# TYPE response_latency_ms histogram\n" := by
  refine ⟨rfl, rfl, by decide, rfl⟩

/-- C2: the claim says the failure series produced by a StreamRequestFail
with HTTP/2 error code 3 carries `classification="failure"` and
`error="FLOW_CONTROL_ERROR"` separated by exactly one comma.  The code
does map code 3 to FLOW_CONTROL_ERROR and files one sample under the two
Error classes, but the label fragment written for an Error response
class has no separator at all between the two labels. -/
theorem C2_missing_comma_after_failure_classification :
    h2Reason 3 = "FLOW_CONTROL_ERROR" ∧
    httpRequestTreeFail {} ⟨3, 7⟩ =
      { total := 0
        by_response :=
          [(.error "FLOW_CONTROL_ERROR",
            { by_end :=
                [(.error "FLOW_CONTROL_ERROR", { total := 1, latency := [7] })] })] } ∧
    rspLabels (.error "FLOW_CONTROL_ERROR") (.error "FLOW_CONTROL_ERROR") =
      "classification=\x22failure\x22error=\x22FLOW_CONTROL_ERROR\x22" ∧
    rspLabels (.error "FLOW_CONTROL_ERROR") (.error "FLOW_CONTROL_ERROR") ≠
      "classification=\x22failure\x22,error=\x22FLOW_CONTROL_ERROR\x22" := by
  refine ⟨rfl, by decide, rfl, by decide⟩

/-- C7 counterexample: two inputs whose formatted strings agree while the
retained maps differ (possible because values are not escaped).  The
derived equality compares both fields, so the two values are unequal even
though `as_str` agrees — refuting identity by formatted string alone. -/
theorem C7_counterexample_eq_not_by_string :
    Option.map DstLabels.formatted (dstLabelsNew [("a", "1\x22,dst_b=\x222")]) =
      Option.map DstLabels.formatted (dstLabelsNew [("a", "1"), ("b", "2")]) ∧
    dstLabelsNew [("a", "1\x22,dst_b=\x222")] ≠ dstLabelsNew [("a", "1"), ("b", "2")] ∧
    dstLabelsNew [("a", "1\x22,dst_b=\x222")] ≠ none := by
  refine ⟨by decide, by decide, by decide⟩

/-- C7 amended: equality of `DstLabels` is the derived one and compares
both the formatted string and the retained original map; hashing feeds
only the formatted string to the hasher, so values with equal formatted
strings hash equally even when they are unequal. -/
theorem C7_amended_eq_both_fields_hash_formatted :
    ∀ a b : DstLabels,
      (a = b ↔ a.formatted = b.formatted ∧ a.original = b.original) ∧
      (a.formatted = b.formatted → dstHashInput a = dstHashInput b) := by
  intro a b
  constructor
  · cases a
    cases b
    simp [DstLabels.mk.injEq]
  · intro h
    simpa [dstHashInput] using h

/-- C7 amended witness: instantiated at a pair of values with the same
formatted string. -/
theorem C7_amended_witness :
    dstHashInput ⟨"dst_a=\x221\x22", [("a", "1")]⟩ =
      dstHashInput ⟨"dst_a=\x221\x22", [("a", "1"), ("b", "2")]⟩ :=
  (C7_amended_eq_both_fields_hash_formatted _ _).2 rfl

/-- A string with nonempty text has a nonempty character list. -/
theorem data_ne_nil_of_ne_empty (s : String) (h : s ≠ "") : s.data ≠ [] := by
  intro hd
  apply h
  cases s with
  | mk l =>
    cases hd
    rfl

/-- Head of an appended character list, when the left part is nonempty. -/
theorem head?_append_left {l l2 : List Char} (h : l ≠ []) : (l ++ l2).head? = l.head? := by
  cases l with
  | nil => exact absurd rfl h
  | cons a t => simp

/-- Last element of an appended character list, when the right part is
nonempty. -/
theorem getLast?_append_right {l l2 : List Char} (h : l2 ≠ []) :
    (l ++ l2).getLast? = l2.getLast? := by
  rw [List.getLast?_append]
  cases h2 : l2.getLast? with
  | none => exact absurd (List.getLast?_eq_none_iff.mp h2) h
  | some c => rfl

/-- C8: under the FmtLabels contract (a fragment is empty exactly when it
writes nothing), the Append combinator writes A alone when B is empty, B
alone when A is empty, and A comma B otherwise; its emptiness is the
conjunction of the two; and it preserves freedom from leading and
trailing commas. -/
theorem C8_append_labels_composition :
    ∀ a b : LabelFragment, Honest a → Honest b →
      ((appendLabels a b).out =
        if b.isEmpty then a.out
        else if a.isEmpty then b.out
        else a.out ++ "," ++ b.out) ∧
      ((appendLabels a b).isEmpty = (a.isEmpty && b.isEmpty)) ∧
      (NoEdgeComma a.out → NoEdgeComma b.out → NoEdgeComma (appendLabels a b).out) := by
  intro a b ha hb
  refine ⟨?_, rfl, ?_⟩
  · cases hae : a.isEmpty <;> cases hbe : b.isEmpty
    · simp [appendLabels, hae, hbe]
    · simp [appendLabels, hae, hbe]
    · simp [appendLabels, hae, hbe]
    · simp [appendLabels, hae, hbe, ha.mp hae]
  · intro hA hB
    cases hae : a.isEmpty <;> cases hbe : b.isEmpty <;>
        simp only [appendLabels, hae, hbe]
    · have hao : a.out ≠ "" := fun h0 => by
        have h1 := ha.mpr h0
        rw [h1] at hae
        cases hae
      have hbo : b.out ≠ "" := fun h0 => by
        have h1 := hb.mpr h0
        rw [h1] at hbe
        cases hbe
      have had := data_ne_nil_of_ne_empty _ hao
      have hbd := data_ne_nil_of_ne_empty _ hbo
      constructor
      · rw [show (a.out ++ "," ++ b.out).data = a.out.data ++ ([','] ++ b.out.data) by
          simp [String.data_append]]
        rw [head?_append_left had]
        exact hA.1
      · rw [show (a.out ++ "," ++ b.out).data = (a.out.data ++ [',']) ++ b.out.data by
          simp [String.data_append]]
        rw [getLast?_append_right hbd]
        exact hB.2
    · exact hA
    · exact hB
    · constructor <;> simp

/-- C8 witness: a nonempty fragment appended to an empty one. -/
theorem C8_append_labels_witness :
    (appendLabels ⟨false, "direction=\x22inbound\x22"⟩ ⟨true, ""⟩).isEmpty =
      (false && true) :=
  (C8_append_labels_composition ⟨false, "direction=\x22inbound\x22"⟩ ⟨true, ""⟩
    ⟨fun h => (by cases h), fun h => absurd h (by decide)⟩
    ⟨fun _ => rfl, fun _ => rfl⟩).2.1

/-- The comma-joined tail accumulates on the right of the fold seed. -/
theorem dstJoin_foldl (rest : List (String × String)) (init : String) :
    rest.foldl (fun s kv => s ++ ("," ++ dstEntryStr kv.1 kv.2)) init =
      init ++ dstJoin rest := by
  induction rest generalizing init with
  | nil => simp [dstJoin]
  | cons kv rest ih =>
    show rest.foldl _ (init ++ ("," ++ dstEntryStr kv.1 kv.2)) = _
    rw [ih, dstJoin, String.append_assoc]

/-- A formatted destination entry is never the empty string. -/
theorem dstEntryStr_length (k v : String) :
    (dstEntryStr k v).length = 7 + k.length + v.length := by
  simp [dstEntryStr, String.length_append]
  have h1 : ("dst_" : String).length = 4 := rfl
  have h2 : ("=\x22" : String).length = 2 := rfl
  have h3 : ("\x22" : String).length = 1 := rfl
  omega

/-- The whole formatted string of a nonempty pair list is nonempty. -/
theorem dstFormatted_ne_empty (k v : String) (rest : List (String × String)) :
    dstEntryStr k v ++ dstJoin rest ≠ "" := by
  intro h
  have hlen : (dstEntryStr k v ++ dstJoin rest).length = 0 := by rw [h]; rfl
  rw [String.length_append, dstEntryStr_length] at hlen
  omega

/-- C10: `DstLabels::new` returns None exactly on an empty pair list; the
Option fragment reports empty exactly in the None case; and a constructed
value always has a nonempty formatted string. -/
theorem C10_new_none_iff_empty :
    ∀ pairs : List (String × String),
      (dstLabelsNew pairs = none ↔ pairs = []) ∧
      (optionLabelsIsEmpty (dstLabelsNew pairs) = true ↔ pairs = []) ∧
      (∀ d, dstLabelsNew pairs = some d → d.formatted ≠ "") := by
  intro pairs
  cases pairs with
  | nil => exact ⟨by simp [dstLabelsNew], by simp [dstLabelsNew, optionLabelsIsEmpty], by
      intro d hd
      simp [dstLabelsNew] at hd⟩
  | cons kv rest =>
    refine ⟨by simp [dstLabelsNew], ?_, ?_⟩
    · simp only [dstLabelsNew, optionLabelsIsEmpty, dstIsEmpty, dstJoin_foldl]
      constructor
      · intro h
        exfalso
        exact dstFormatted_ne_empty kv.1 kv.2 rest ((String.isEmpty_iff _).mp h)
      · intro h
        cases h
    · intro d hd
      simp only [dstLabelsNew, Option.some.injEq] at hd
      rw [← hd]
      simp only [dstJoin_foldl]
      exact dstFormatted_ne_empty kv.1 kv.2 rest

/-- C10 witness: a one-pair list yields Some with the expected nonempty
formatted string. -/
theorem C10_witness : ("dst_a=\x22b\x22" : String) ≠ "" :=
  (C10_new_none_iff_empty [("a", "b")]).2.2 ⟨"dst_a=\x22b\x22", [("a", "b")]⟩ (by decide)

/-- The numeral value of 2^64. -/
theorem two_pow_64_eq : (2 : Nat) ^ 64 = 18446744073709551616 := by norm_num

/-- Unfolding U64_MAX to a numeral. -/
theorem U64_MAX_eq : U64_MAX = 18446744073709551615 := by
  rw [U64_MAX, two_pow_64_eq]

/-- Appending one event runs the step after the prefix. -/
theorem runTransport_append (es : List TEvent) (e : TEvent) :
    runTransport (es ++ [e]) = transportStep (runTransport es) e := by
  simp [runTransport, List.foldl_append]

/-- Open count over an appended open event. -/
theorem opensCount_append_open (es : List TEvent) :
    opensCount (es ++ [.tOpen]) = opensCount es + 1 := by
  simp [opensCount, List.filter_append, List.filter, isOpenEv]

/-- Open count over an appended close event. -/
theorem opensCount_append_close (es : List TEvent) (c : CloseEv) :
    opensCount (es ++ [.tClose c]) = opensCount es := by
  simp [opensCount, List.filter_append, List.filter, isOpenEv]

/-- Close count over an appended open event. -/
theorem closesCount_append_open (es : List TEvent) :
    closesCount (es ++ [.tOpen]) = closesCount es := by
  simp [closesCount, List.filter_append, List.filter, isOpenEv]

/-- Close count over an appended close event. -/
theorem closesCount_append_close (es : List TEvent) (c : CloseEv) :
    closesCount (es ++ [.tClose c]) = closesCount es + 1 := by
  simp [closesCount, List.filter_append, List.filter, isOpenEv]

/-- The close counter of a looked-up-or-defaulted end entry. -/
theorem getD_close_total (o : Option TransportEndMetrics) :
    (o.getD {}).close_total = endCloseTotal o := by
  cases o <;> rfl

/-- A counter below the cap increments exactly. -/
theorem counterIncr_eq (x : Nat) (h : x < U64_MAX) : counterIncr x = x + 1 := by
  rw [counterIncr, counterAdd]
  omega

/-- The open fields after `TransportTree::open`. -/
theorem transportTreeOpen_fields (t : TransportTree) :
    (transportTreeOpen t).open_total = counterIncr t.open_total ∧
    (transportTreeOpen t).open_active = gaugeIncr t.open_active ∧
    closeSum (transportTreeOpen t) = closeSum t :=
  ⟨rfl, rfl, rfl⟩

/-- The fields after `TransportTree::close`: the open total is untouched,
the gauge is decremented, and the close counter of the class selected by
`clean` is incremented. -/
theorem transportTreeClose_fields (t : TransportTree) (c : CloseEv) :
    (transportTreeClose t c).open_total = t.open_total ∧
    (transportTreeClose t c).open_active = gaugeDecr t.open_active ∧
    closeSum (transportTreeClose t c) =
      (if c.clean then
        counterIncr (endCloseTotal t.by_end_success) + endCloseTotal t.by_end_failure
      else
        endCloseTotal t.by_end_success + counterIncr (endCloseTotal t.by_end_failure)) := by
  cases hc : c.clean <;>
    simp [transportTreeClose, hc, closeSum, getD_close_total, endCloseTotal]

/-- State characterization of a transport event run: when every prefix
has at least as many opens as closes and the total number of opens stays
below 2^64, no counter or gauge saturates, and the three aggregates equal
the event counts. -/
theorem runTransport_spec :
    ∀ es : List TEvent,
      (∀ n, closesCount (es.take n) ≤ opensCount (es.take n)) →
      opensCount es < 2 ^ 64 →
      (runTransport es).open_total = opensCount es ∧
      closeSum (runTransport es) = closesCount es ∧
      (runTransport es).open_active = opensCount es - closesCount es := by
  intro es
  induction es using List.reverseRecOn with
  | nil => exact fun _ _ => ⟨rfl, rfl, rfl⟩
  | append_singleton es e ih =>
    intro hpre hsat
    have hpre' : ∀ n, closesCount (es.take n) ≤ opensCount (es.take n) := by
      intro n
      by_cases hn : n ≤ es.length
      · have h := hpre n
        rwa [List.take_append_of_le_length hn] at h
      · rw [List.take_of_length_le (by omega : es.length ≤ n)]
        have h := hpre es.length
        rwa [List.take_append_of_le_length (Nat.le_refl _), List.take_length] at h
    have hco : closesCount es ≤ opensCount es := by
      have h := hpre' es.length
      rwa [List.take_length] at h
    have hopens_le : opensCount es ≤ opensCount (es ++ [e]) := by
      cases e with
      | tOpen => rw [opensCount_append_open]; omega
      | tClose c => rw [opensCount_append_close]
    have hsat' : opensCount es < 2 ^ 64 := lt_of_le_of_lt hopens_le hsat
    obtain ⟨h1, h2, h3⟩ := ih hpre' hsat'
    have hfull : closesCount (es ++ [e]) ≤ opensCount (es ++ [e]) := by
      have h := hpre (es.length + 1)
      rwa [List.take_of_length_le (by simp)] at h
    rw [runTransport_append]
    rw [two_pow_64_eq] at hsat hsat'
    cases e with
    | tOpen =>
      obtain ⟨f1, f2, f3⟩ := transportTreeOpen_fields (runTransport es)
      rw [opensCount_append_open es, closesCount_append_open es] at *
      have hlt : opensCount es < U64_MAX := by
        rw [U64_MAX_eq]
        omega
      simp only [transportStep]
      refine ⟨?_, ?_, ?_⟩
      · rw [f1, h1, counterIncr_eq _ hlt]
      · rw [f3, h2]
      · rw [f2, h3, gaugeIncr]
        rw [U64_MAX_eq]
        split
        · omega
        · omega
    | tClose c =>
      obtain ⟨f1, f2, f3⟩ := transportTreeClose_fields (runTransport es) c
      rw [opensCount_append_close es c, closesCount_append_close es c] at *
      have hclose1 : closesCount es + 1 ≤ opensCount es := hfull
      have hsum : endCloseTotal (runTransport es).by_end_success +
          endCloseTotal (runTransport es).by_end_failure = closesCount es := by
        simpa [closeSum] using h2
      simp only [transportStep]
      refine ⟨?_, ?_, ?_⟩
      · rw [f1, h1]
      · rw [f3]
        have hbound : endCloseTotal (runTransport es).by_end_success < U64_MAX ∧
            endCloseTotal (runTransport es).by_end_failure < U64_MAX := by
          rw [U64_MAX_eq]
          omega
        cases hc : c.clean
        · rw [if_neg Bool.false_ne_true]
          rw [counterIncr_eq _ hbound.2]
          omega
        · rw [if_pos rfl]
          rw [counterIncr_eq _ hbound.1]
          omega
      · rw [f2, h3, gaugeDecr]
        split
        · omega
        · omega

/-- C9: starting from the default TransportTree, for any open/close
sequence in which no prefix has more closes than opens and the open
counter never saturates, the quiescent state satisfies
open_active = open_total - (close_total over Success plus Failure). -/
theorem C9_open_active_invariant :
    ∀ es : List TEvent,
      (∀ n, closesCount (es.take n) ≤ opensCount (es.take n)) →
      opensCount es < 2 ^ 64 →
      closeSum (runTransport es) ≤ (runTransport es).open_total ∧
      (runTransport es).open_active =
        (runTransport es).open_total - closeSum (runTransport es) := by
  intro es hpre hsat
  obtain ⟨h1, h2, h3⟩ := runTransport_spec es hpre hsat
  have hco : closesCount es ≤ opensCount es := by
    have h := hpre es.length
    rwa [List.take_length] at h
  constructor
  · rw [h1, h2]
    exact hco
  · rw [h1, h2, h3]

/-- C9 witness: two opens followed by one clean close leave one active
connection, consistent with the invariant. -/
theorem C9_witness :
    closeSum (runTransport [.tOpen, .tOpen, .tClose ⟨true, 5, 100, 200⟩]) ≤
      (runTransport [.tOpen, .tOpen, .tClose ⟨true, 5, 100, 200⟩]).open_total ∧
    (runTransport [.tOpen, .tOpen, .tClose ⟨true, 5, 100, 200⟩]).open_active =
      (runTransport [.tOpen, .tOpen, .tClose ⟨true, 5, 100, 200⟩]).open_total -
        closeSum (runTransport [.tOpen, .tOpen, .tClose ⟨true, 5, 100, 200⟩]) :=
  C9_open_active_invariant [.tOpen, .tOpen, .tClose ⟨true, 5, 100, 200⟩]
    (by
      intro n
      match n with
      | 0 => decide
      | 1 => decide
      | 2 => decide
      | (m + 3) =>
        rw [List.take_of_length_le (by simp)]
        decide)
    (by decide)

/-- C5 counterexample: labels.rs performs no escaping, so a double quote
inside a value is written verbatim; the tokenizer then closes the value
at the embedded quote and fails on the rest, so the round trip of the
claim does not hold at this input. -/
theorem C5_counterexample_quote_not_escaped :
    Option.map DstLabels.formatted (dstLabelsNew [("k", "a\x22b")]) =
      some "dst_k=\x22a\x22b\x22" ∧
    parseLabels "dst_k=\x22a\x22b\x22" = none ∧
    parseLabels "dst_k=\x22a\x22b\x22" ≠ some [("dst_k", "a\x22b")] := by
  refine ⟨by decide, by decide, by decide⟩

/-- Splitting a formatted entry back into characters. -/
theorem dstEntryStr_data (k v : String) :
    (dstEntryStr k v).data =
      'd' :: 's' :: 't' :: '_' :: (k.data ++ '=' :: '\x22' :: (v.data ++ ['\x22'])) := by
  simp [dstEntryStr, String.data_append,
    show ("dst_" : String).data = ['d', 's', 't', '_'] from rfl,
    show ("=\x22" : String).data = ['=', '\x22'] from rfl,
    show ("\x22" : String).data = ['\x22'] from rfl]

/-- Rebuilding a string from its characters. -/
theorem mk_data (s : String) : String.mk s.data = s := rfl

/-- The characters of a prefixed key rebuild to the prefixed string. -/
theorem mk_dst (k : String) : String.mk ('d' :: 's' :: 't' :: '_' :: k.data) = "dst_" ++ k := by
  cases k with
  | mk l => rfl

/-- The key reader stops at the first equals sign. -/
theorem parseKeyAux_spec :
    ∀ (kd r : List Char), '=' ∉ kd → parseKeyAux (kd ++ '=' :: r) = some (kd, r) := by
  intro kd
  induction kd with
  | nil =>
    intro r _
    simp [parseKeyAux]
  | cons c t ih =>
    intro r h
    have hc : ¬(c = '=') := fun he => h (by rw [he]; exact List.mem_cons_self _ _)
    have ht : '=' ∉ t := fun hm => h (List.mem_cons_of_mem _ hm)
    simp [parseKeyAux, hc, ih r ht]

/-- The value reader stops at the first unescaped quote. -/
theorem parseValue_spec :
    ∀ (vd r : List Char), '\x22' ∉ vd → '\\' ∉ vd →
      parseValue (vd ++ '\x22' :: r) = some (vd, r) := by
  intro vd
  induction vd with
  | nil =>
    intro r _ _
    rfl
  | cons c t ih =>
    intro r hq hb
    have hc1 : ¬(c = '\x22') := fun he => hq (by rw [he]; exact List.mem_cons_self _ _)
    have hc2 : ¬(c = '\\') := fun he => hb (by rw [he]; exact List.mem_cons_self _ _)
    have ht1 : '\x22' ∉ t := fun hm => hq (List.mem_cons_of_mem _ hm)
    have ht2 : '\\' ∉ t := fun hm => hb (List.mem_cons_of_mem _ hm)
    have ih2 : parseValueAux false (t ++ '\x22' :: r) = some (t, r) := ih r ht1 ht2
    show parseValueAux false (c :: (t ++ '\x22' :: r)) = some (c :: t, r)
    simp [parseValueAux, hc1, hc2, ih2]

/-- Reading one clean formatted entry yields the prefixed pair and the
untouched tail. -/
theorem parsePair_spec (k v : String) (tail : List Char)
    (hk : '=' ∉ k.data) (hq : '\x22' ∉ v.data) (hb : '\\' ∉ v.data) :
    parsePair ((dstEntryStr k v).data ++ tail) = some (("dst_" ++ k, v), tail) := by
  have hknot : '=' ∉ ('d' :: 's' :: 't' :: '_' :: k.data) := by
    intro hmem
    simp at hmem
    exact hk hmem
  rw [dstEntryStr_data]
  simp only [List.cons_append, List.append_assoc]
  simp [parsePair, parseKeyAux, parseKeyAux_spec _ _ hk,
    parseValue_spec _ _ hq hb, mk_dst, mk_data]

/-- Character form of the comma-joined tail at a cons. -/
theorem dstJoin_cons_data (kv : String × String) (rest : List (String × String)) :
    (dstJoin (kv :: rest)).data = ',' :: (dstEntryStr kv.1 kv.2 ++ dstJoin rest).data := by
  simp [dstJoin, String.data_append, show ("," : String).data = [','] from rfl]

/-- The joined tail has at least one character per pair. -/
theorem dstJoin_length_ge (rest : List (String × String)) :
    rest.length ≤ (dstJoin rest).data.length := by
  induction rest with
  | nil => simp [dstJoin]
  | cons kv r ih =>
    rw [dstJoin_cons_data]
    simp only [List.length_cons, String.data_append, List.length_append]
    omega

/-- Tokenizing the formatted form of clean pairs returns exactly the
prefixed pairs, given fuel beyond the pair count. -/
theorem parse_dst_chars :
    ∀ (pairs : List (String × String)) (k v : String) (fuel : Nat),
      ('=' ∉ k.data) → ('\x22' ∉ v.data) → ('\\' ∉ v.data) →
      CleanPairs pairs →
      pairs.length < fuel →
      parseLabelsAux fuel (dstEntryStr k v ++ dstJoin pairs).data =
        some (("dst_" ++ k, v) :: pairs.map (fun kv => ("dst_" ++ kv.1, kv.2))) := by
  intro pairs
  induction pairs with
  | nil =>
    intro k v fuel hk hq hb _ hfuel
    obtain ⟨f, rfl⟩ : ∃ f, fuel = f + 1 := ⟨fuel - 1, by omega⟩
    rw [String.data_append, show (dstJoin []).data = [] from rfl]
    simp only [parseLabelsAux]
    rw [parsePair_spec k v [] hk hq hb]
    rfl
  | cons kv2 rest ih =>
    intro k v fuel hk hq hb hclean hfuel
    obtain ⟨f, rfl⟩ : ∃ f, fuel = f + 1 := ⟨fuel - 1, by omega⟩
    have hk2 : '=' ∉ kv2.1.data := (hclean kv2 (List.mem_cons_self _ _)).1
    have hq2 : '\x22' ∉ kv2.2.data := (hclean kv2 (List.mem_cons_self _ _)).2.1
    have hb2 : '\\' ∉ kv2.2.data := (hclean kv2 (List.mem_cons_self _ _)).2.2
    have hcleanrest : CleanPairs rest := fun kv3 hm => hclean kv3 (List.mem_cons_of_mem _ hm)
    have hih := ih kv2.1 kv2.2 f hk2 hq2 hb2 hcleanrest (by
      simp only [List.length_cons] at hfuel
      omega)
    rw [String.data_append, dstJoin_cons_data]
    simp only [parseLabelsAux]
    rw [parsePair_spec k v (',' :: (dstEntryStr kv2.1 kv2.2 ++ dstJoin rest).data) hk hq hb]
    rw [String.data_append] at hih
    simp [hih]

/-- C5 amended: for a non-empty pair list, `DstLabels::new` formats
`dst_<key>="<value>"` entries joined by single commas with the value
text inserted verbatim (no escaping of backslash, quote, or newline);
re-parsing with a Prometheus label tokenizer returns the original pairs
with keys prefixed `dst_` provided keys contain no `=` and values contain
no double quote or backslash. -/
theorem C5_amended_roundtrip :
    ∀ (pairs : List (String × String)) (d : DstLabels),
      dstLabelsNew pairs = some d → CleanPairs pairs →
      parseLabels d.formatted = some (pairs.map fun kv => ("dst_" ++ kv.1, kv.2)) := by
  intro pairs d hsome hclean
  cases pairs with
  | nil => simp [dstLabelsNew] at hsome
  | cons kv rest =>
    obtain ⟨k, v⟩ := kv
    have hfmt : d.formatted = dstEntryStr k v ++ dstJoin rest := by
      simp only [dstLabelsNew, Option.some.injEq] at hsome
      rw [← hsome]
      simp [dstJoin_foldl]
    have hk : '=' ∉ k.data := (hclean (k, v) (List.mem_cons_self _ _)).1
    have hq : '\x22' ∉ v.data := (hclean (k, v) (List.mem_cons_self _ _)).2.1
    have hb : '\\' ∉ v.data := (hclean (k, v) (List.mem_cons_self _ _)).2.2
    have hcleanrest : CleanPairs rest := fun kv2 hm => hclean kv2 (List.mem_cons_of_mem _ hm)
    rw [parseLabels, hfmt]
    have hlen : rest.length < (dstEntryStr k v ++ dstJoin rest).data.length + 1 := by
      rw [String.data_append, List.length_append]
      have h := dstJoin_length_ge rest
      omega
    have h := parse_dst_chars rest k v _ hk hq hb hcleanrest hlen
    rw [h]
    simp

/-- C5 amended witness: two clean pairs format and re-parse to the
prefixed originals. -/
theorem C5_amended_witness :
    parseLabels "dst_app=\x22foo\x22,dst_ns=\x22prod\x22" =
      some [("dst_app", "foo"), ("dst_ns", "prod")] := by
  have h := C5_amended_roundtrip [("app", "foo"), ("ns", "prod")]
    ⟨"dst_app=\x22foo\x22,dst_ns=\x22prod\x22", [("app", "foo"), ("ns", "prod")]⟩
    (by decide) (by unfold CleanPairs; decide)
  simpa using h

end Conduit
